import Mathlib

/-!
Scroll-driven caption carousel of `src/main.js`.

A shallow embedding of the wheel listener (`src/main.js` lines 159-167), of
`throttledWheel` (lines 125-157) and of the two module-level variables
`isAnimating` and `headingIndex` (lines 122-123), together with the fragment
of JavaScript value semantics these lines rely on: `Math.abs`, `>`, `+`, `-`,
`*`, `%` and the numeric coercion of a property that was never declared to be
a number.

Modelling conventions.

* A finite JavaScript number is represented by its exact mathematical value
  (a rational); `+0` and `-0` are identified (the program never distinguishes
  them: comparisons agree on both and the template literal prints `0` for
  both).  Rounding to binary64 is not represented; all arithmetic performed on
  `headingIndex` is on integers far below `2^53`, where it is exact, and the
  comparisons `> 30` and `> 0` are exact on every number.
* `Math.PI / 2` is kept symbolic: a rotation amount is an integer number of
  quarter turns (`-1` for `-Math.PI / 2`, `+1` for `Math.PI / 2`).
* `gsap.to` is an external collaborator: a call is recorded as a `Tween`
  request; the tweener later completes each started tween once and then runs
  its `onComplete` callback, if it has one.
* `document.querySelectorAll("h1").length` is an input of the handler
  (`totalHeadings`), read at each accepted event as in the source.
-/

namespace Planets

/-! ## JavaScript numbers -/

/-- A JavaScript Number value: `NaN`, a finite value, `+Infinity` or `-Infinity`. -/
inductive JSNumber where
  | nan
  | fin (q : ℚ)
  | posInf
  | negInf
  deriving DecidableEq

namespace JSNumber

/-- The function `Math.abs` on a Number. -/
def abs : JSNumber → JSNumber
  | nan => nan
  | fin q => fin |q|
  | posInf => posInf
  | negInf => posInf

/-- The comparison `a > b` on Numbers; any comparison involving `NaN` is false. -/
def gt : JSNumber → JSNumber → Bool
  | fin a, fin b => decide (b < a)
  | posInf, fin _ => true
  | posInf, negInf => true
  | fin _, negInf => true
  | _, _ => false

/-- Unary minus on Numbers. -/
def neg : JSNumber → JSNumber
  | nan => nan
  | fin q => fin (-q)
  | posInf => negInf
  | negInf => posInf

/-- The operator `+` on Numbers (`Number::add`). -/
def add : JSNumber → JSNumber → JSNumber
  | nan, _ => nan
  | _, nan => nan
  | fin a, fin b => fin (a + b)
  | posInf, negInf => nan
  | negInf, posInf => nan
  | posInf, _ => posInf
  | negInf, _ => negInf
  | fin _, posInf => posInf
  | fin _, negInf => negInf

/-- The operator `-` on Numbers (`Number::subtract`): `a - b` is `a + (-b)`. -/
def sub (a b : JSNumber) : JSNumber := add a (neg b)

/-- An infinity of the given sign. -/
def signedInf (positive : Bool) : JSNumber := if positive then posInf else negInf

/-- The operator `*` on Numbers (`Number::multiply`). -/
def mul : JSNumber → JSNumber → JSNumber
  | nan, _ => nan
  | _, nan => nan
  | fin a, fin b => fin (a * b)
  | fin a, posInf => if a = 0 then nan else signedInf (decide (0 < a))
  | fin a, negInf => if a = 0 then nan else signedInf (decide (a < 0))
  | posInf, fin b => if b = 0 then nan else signedInf (decide (0 < b))
  | negInf, fin b => if b = 0 then nan else signedInf (decide (b < 0))
  | posInf, posInf => posInf
  | negInf, negInf => posInf
  | posInf, negInf => negInf
  | negInf, posInf => negInf

/-- Truncation of a rational toward zero. -/
def truncate (q : ℚ) : ℤ := if 0 ≤ q then ⌊q⌋ else ⌈q⌉

/-- The operator `%` on Numbers (`Number::remainder`): `NaN` when an operand is
`NaN`, when the dividend is infinite or when the divisor is zero; the dividend
when the divisor is infinite; otherwise `n - d * truncate (n / d)`, whose sign
is that of the dividend. -/
def mod : JSNumber → JSNumber → JSNumber
  | nan, _ => nan
  | _, nan => nan
  | posInf, _ => nan
  | negInf, _ => nan
  | fin n, posInf => fin n
  | fin n, negInf => fin n
  | fin n, fin d => if d = 0 then nan else fin (n - d * (truncate (n / d) : ℚ))

end JSNumber

/-! ## JavaScript values and numeric coercion -/

/-- An abrupt completion raised by the operations modelled here. -/
inductive JSError where
  | typeError
  deriving DecidableEq

/-- A primitive JavaScript value. -/
inductive JSPrimitive where
  | undefined
  | null
  | boolean (b : Bool)
  | number (x : JSNumber)
  | string (s : String)
  | symbol
  | bigint (i : ℤ)
  deriving DecidableEq

/-- A JavaScript value as far as coercion is concerned: a primitive, or an
object, which is represented by the outcome of its `ToPrimitive` conversion
with hint `number` (a primitive, or a thrown error).  The conversion of an
object is taken to be deterministic and without effect on the carousel. -/
inductive JSValue where
  | prim (p : JSPrimitive)
  | object (toPrimitive : Except JSError JSPrimitive)

/-- White space and line terminators stripped by `StringToNumber`. -/
def isStrWhiteSpaceChar (c : Char) : Bool :=
  let n := c.toNat
  n = 9 || n = 10 || n = 11 || n = 12 || n = 13 || n = 32 || n = 160 ||
  n = 0x1680 || (0x2000 ≤ n && n ≤ 0x200A) || n = 0x2028 || n = 0x2029 ||
  n = 0x202F || n = 0x205F || n = 0x3000 || n = 0xFEFF

/-- The value of a character as a digit in the given radix, if it is one. -/
def digitValue (radix : ℕ) (c : Char) : Option ℕ :=
  let n := c.toNat
  let v : Option ℕ :=
    if 48 ≤ n ∧ n ≤ 57 then some (n - 48)
    else if 97 ≤ n ∧ n ≤ 102 then some (n - 87)
    else if 65 ≤ n ∧ n ≤ 70 then some (n - 55)
    else none
  match v with
  | some d => if d < radix then some d else none
  | none => none

/-- Reads a sequence of digits, most significant first, onto an accumulator;
fails on a character that is not a digit of the radix. -/
def digitsValue (radix : ℕ) : List Char → ℕ → Option ℕ
  | [], acc => some acc
  | c :: cs, acc =>
    match digitValue radix c with
    | some d => digitsValue radix cs (radix * acc + d)
    | none => none

/-- One or more digits of the radix. -/
def parseDigits (radix : ℕ) (cs : List Char) : Option ℕ :=
  if cs = [] then none else digitsValue radix cs 0

/-- The numeric literal read from a string, before it is turned into a Number. -/
inductive StrNumeric where
  | infinity
  | decimal (mantissa : ℕ) (exp10 : ℤ)
  deriving DecidableEq

/-- The production `ExponentPart?` at the end of a decimal literal: nothing,
or `e`/`E`, an optional sign and one or more decimal digits. -/
def parseExponent : List Char → Option ℤ
  | [] => some 0
  | c :: rest =>
    if c = 'e' ∨ c = 'E' then
      match rest with
      | '+' :: ds => (parseDigits 10 ds).map fun n => (n : ℤ)
      | '-' :: ds => (parseDigits 10 ds).map fun n => -(n : ℤ)
      | ds => (parseDigits 10 ds).map fun n => (n : ℤ)
    else none

/-- The production `StrUnsignedDecimalLiteral`: `Infinity`,
`digits . digits? exponent?`, `. digits exponent?` or `digits exponent?`. -/
def parseUnsignedDecimal (cs : List Char) : Option StrNumeric :=
  if cs = "Infinity".toList then some StrNumeric.infinity
  else
    let intPart := cs.takeWhile fun c => (digitValue 10 c).isSome
    let rest := cs.dropWhile fun c => (digitValue 10 c).isSome
    match rest with
    | '.' :: afterDot =>
      let fracPart := afterDot.takeWhile fun c => (digitValue 10 c).isSome
      let tail := afterDot.dropWhile fun c => (digitValue 10 c).isSome
      if intPart = [] ∧ fracPart = [] then none
      else
        match digitsValue 10 (intPart ++ fracPart) 0, parseExponent tail with
        | some m, some e => some (StrNumeric.decimal m (e - (fracPart.length : ℤ)))
        | _, _ => none
    | tail =>
      match parseDigits 10 intPart, parseExponent tail with
      | some m, some e => some (StrNumeric.decimal m e)
      | _, _ => none

/-- The production `NonDecimalIntegerLiteral`: `0x`, `0o` or `0b` (either
case) followed by one or more digits of that radix; it takes no sign. -/
def parseNonDecimal : List Char → Option ℕ
  | '0' :: c :: ds =>
    if c = 'x' ∨ c = 'X' then parseDigits 16 ds
    else if c = 'o' ∨ c = 'O' then parseDigits 8 ds
    else if c = 'b' ∨ c = 'B' then parseDigits 2 ds
    else none
  | _ => none

/-- The mathematical value of a decimal literal as a Number. -/
def StrNumeric.toNumber : StrNumeric → JSNumber
  | StrNumeric.infinity => JSNumber.posInf
  | StrNumeric.decimal m e => JSNumber.fin ((m : ℚ) * (10 : ℚ) ^ e)

/-- The string with leading and trailing white space removed. -/
def trimWhiteSpace (cs : List Char) : List Char :=
  ((cs.dropWhile isStrWhiteSpaceChar).reverse.dropWhile isStrWhiteSpaceChar).reverse

/-- The abstract operation `StringToNumber`: white space is trimmed; the empty
string is `0`; a string that is not a numeric literal is `NaN`. -/
def StringToNumber (s : String) : JSNumber :=
  let cs := trimWhiteSpace s.toList
  if cs = [] then JSNumber.fin 0
  else
    match parseNonDecimal cs with
    | some n => JSNumber.fin (n : ℚ)
    | none =>
      match cs with
      | '+' :: rest =>
        match parseUnsignedDecimal rest with
        | some lit => lit.toNumber
        | none => JSNumber.nan
      | '-' :: rest =>
        match parseUnsignedDecimal rest with
        | some lit => lit.toNumber.neg
        | none => JSNumber.nan
      | _ =>
        match parseUnsignedDecimal cs with
        | some lit => lit.toNumber
        | none => JSNumber.nan

/-- The abstract operation `ToNumber` on a primitive: `undefined` is `NaN`,
`null` is `0`, booleans are `0` and `1`, strings go through `StringToNumber`,
symbols and BigInts throw a `TypeError`. -/
def JSPrimitive.toNumber : JSPrimitive → Except JSError JSNumber
  | JSPrimitive.undefined => Except.ok JSNumber.nan
  | JSPrimitive.null => Except.ok (JSNumber.fin 0)
  | JSPrimitive.boolean b => Except.ok (JSNumber.fin (if b then 1 else 0))
  | JSPrimitive.number x => Except.ok x
  | JSPrimitive.string s => Except.ok (StringToNumber s)
  | JSPrimitive.symbol => Except.error JSError.typeError
  | JSPrimitive.bigint _ => Except.error JSError.typeError

/-- The abstract operation `ToPrimitive` with hint `number`. -/
def JSValue.toPrimitive : JSValue → Except JSError JSPrimitive
  | JSValue.prim p => Except.ok p
  | JSValue.object r => r

/-- The abstract operation `ToNumber` on a value. -/
def JSValue.toNumber (v : JSValue) : Except JSError JSNumber :=
  match v.toPrimitive with
  | Except.ok p => p.toNumber
  | Except.error e => Except.error e

/-- The expression `Math.abs(v)`: the argument is coerced with `ToNumber`. -/
def mathAbs (v : JSValue) : Except JSError JSNumber :=
  match v.toNumber with
  | Except.ok x => Except.ok x.abs
  | Except.error e => Except.error e

/-- The comparison of a BigInt with a Number, `i > c`. -/
def bigintGt (i : ℤ) : JSNumber → Bool
  | JSNumber.nan => false
  | JSNumber.fin q => decide (q < (i : ℚ))
  | JSNumber.posInf => false
  | JSNumber.negInf => true

/-- The expression `v > c` for a Number `c`: `v` is converted to a primitive;
a BigInt is compared by mathematical value, any other primitive is coerced
with `ToNumber` (a symbol throws). -/
def JSValue.gtNumber (v : JSValue) (c : JSNumber) : Except JSError Bool :=
  match v.toPrimitive with
  | Except.ok (JSPrimitive.bigint i) => Except.ok (bigintGt i c)
  | Except.ok p =>
    match p.toNumber with
    | Except.ok x => Except.ok (x.gt c)
    | Except.error e => Except.error e
  | Except.error e => Except.error e

/-! ## The carousel -/

/-- The module-level variables `isAnimating` and `headingIndex` (lines 122-123). -/
structure CarouselState where
  isAnimating : Bool
  headingIndex : JSNumber
  deriving DecidableEq

/-- The values the two variables are declared with: `false` and `0`. -/
def CarouselState.initial : CarouselState := ⟨false, JSNumber.fin 0⟩

/-- A wheel event as the handlers read it: only its `deltaY` property is
accessed; a property that is absent reads as `undefined`. -/
structure WheelEvent where
  deltaY : JSValue

/-- The local constant `direction` (line 128), `"down"` or `"up"`. -/
inductive Direction where
  | down
  | up
  deriving DecidableEq

/-- The callbacks handed to the tweener; the only one is the arrow function
of lines 146-148. -/
inductive Callback where
  | clearIsAnimating
  deriving DecidableEq

/-- Runs a callback: `isAnimating = false`. -/
def Callback.run : Callback → CarouselState → CarouselState
  | Callback.clearIsAnimating, s => ⟨false, s.headingIndex⟩

/-- The first argument of `gsap.to`: the `h1` node list or `spheres.rotation`. -/
inductive TweenTarget where
  | headings
  | spheresRotation
  deriving DecidableEq

/-- The `y` property of a tween: the template literal of line 143, an
absolute percentage, or that of line 153, an increment relative to the current
value, counted in quarter turns (multiples of `Math.PI / 2`). -/
inductive TweenY where
  | percent (v : JSNumber)
  | relative (quarterTurns : ℤ)
  deriving DecidableEq

/-- One call of `gsap.to` with its target and variables. -/
structure Tween where
  target : TweenTarget
  y : TweenY
  duration : ℕ
  ease : String
  onComplete : Option Callback
  deriving DecidableEq

/-- The caption tween of lines 142-149. -/
def captionTween (animationDistance : JSNumber) : Tween :=
  ⟨TweenTarget.headings, TweenY.percent animationDistance, 1, "power2.inOut",
    some Callback.clearIsAnimating⟩

/-- The rotation tween of lines 152-156; it has no `onComplete`. -/
def rotationTween (rotationAmount : ℤ) : Tween :=
  ⟨TweenTarget.spheresRotation, TweenY.relative rotationAmount, 1, "power2.inOut", none⟩

/-- The conditional expression of lines 135-138, the value assigned to
`headingIndex`. -/
def nextHeadingIndex (direction : Direction) (headingIndex : JSNumber) (totalHeadings : ℕ) :
    JSNumber :=
  let total := JSNumber.fin (totalHeadings : ℚ)
  match direction with
  | Direction.down => (headingIndex.add (JSNumber.fin 1)).mod total
  | Direction.up => ((headingIndex.sub (JSNumber.fin 1)).add total).mod total

/-- The constant `rotationAmount` (line 151) in quarter turns: `-Math.PI / 2`
for `"down"`, `Math.PI / 2` for `"up"`. -/
def rotationAmount : Direction → ℤ
  | Direction.down => -1
  | Direction.up => 1

/-- The function `throttledWheel` (lines 125-157).  `totalHeadings` is
`document.querySelectorAll("h1").length`.  The result is the new value of the
two variables and the `gsap.to` calls made, in order; an exception can only
leave the function at line 128, before any assignment. -/
def throttledWheel (totalHeadings : ℕ) (s : CarouselState) (event : WheelEvent) :
    Except JSError (CarouselState × List Tween) :=
  if s.isAnimating then Except.ok (s, [])
  else
    match event.deltaY.gtNumber (JSNumber.fin 0) with
    | Except.error e => Except.error e
    | Except.ok isPositive =>
      let direction := if isPositive then Direction.down else Direction.up
      let headingIndex := nextHeadingIndex direction s.headingIndex totalHeadings
      let animationDistance := headingIndex.mul (JSNumber.fin (-100))
      Except.ok (⟨true, headingIndex⟩,
        [captionTween animationDistance, rotationTween (rotationAmount direction)])

/-- The listener registered for `"wheel"` (lines 159-167). -/
def wheelListener (totalHeadings : ℕ) (s : CarouselState) (event : WheelEvent) :
    Except JSError (CarouselState × List Tween) :=
  match mathAbs event.deltaY with
  | Except.error e => Except.error e
  | Except.ok a =>
    if a.gt (JSNumber.fin 30) then throttledWheel totalHeadings s event
    else Except.ok (s, [])

/-! ## The page: carousel and tweener -/

/-- The carousel together with the tweener: the tweens started and not yet
completed, and every tween requested so far, oldest first. -/
structure Page where
  carousel : CarouselState
  active : List Tween
  requested : List Tween
  deriving DecidableEq

/-- The page after the script has run: no tween has been requested. -/
def Page.initial : Page := ⟨CarouselState.initial, [], []⟩

/-- What can happen to the page: a wheel event is dispatched, or the tweener
completes the active tween at a position (nothing happens when there is none). -/
inductive PageEvent where
  | wheel (event : WheelEvent)
  | tweenComplete (i : ℕ)

/-- One step of the page.  An exception thrown by the listener is reported by
the event loop and changes nothing, since it is raised before any assignment.
A completed tween leaves the active list and its `onComplete` runs. -/
def Page.step (totalHeadings : ℕ) (p : Page) : PageEvent → Page
  | PageEvent.wheel event =>
    match wheelListener totalHeadings p.carousel event with
    | Except.ok (s, tweens) => ⟨s, p.active ++ tweens, p.requested ++ tweens⟩
    | Except.error _ => p
  | PageEvent.tweenComplete i =>
    match p.active[i]? with
    | none => p
    | some t =>
      match t.onComplete with
      | some callback => ⟨callback.run p.carousel, p.active.eraseIdx i, p.requested⟩
      | none => ⟨p.carousel, p.active.eraseIdx i, p.requested⟩

/-- The page after a sequence of events. -/
def Page.run (totalHeadings : ℕ) (p : Page) (events : List PageEvent) : Page :=
  events.foldl (Page.step totalHeadings) p

/-- The number of caption tweens in flight. -/
def Page.captionsInFlight (p : Page) : ℕ :=
  p.active.countP fun t => decide (t.target = TweenTarget.headings)

/-- The sum of the rotation increments of a list of tweens, in quarter turns. -/
def yawQuarterTurns : List Tween → ℤ
  | [] => 0
  | t :: ts =>
    match t.target, t.y with
    | TweenTarget.spheresRotation, TweenY.relative q => q + yawQuarterTurns ts
    | _, _ => yawQuarterTurns ts

/-- A wheel event with a numeric `deltaY`. -/
def WheelEvent.ofNumber (q : ℚ) : WheelEvent :=
  ⟨JSValue.prim (JSPrimitive.number (JSNumber.fin q))⟩

/-- Whether the listener lets the event through to `throttledWheel`:
`Math.abs(event.deltaY) > 30` evaluates to true. -/
def WheelEvent.exceedsThreshold (event : WheelEvent) : Bool :=
  match mathAbs event.deltaY with
  | Except.ok a => a.gt (JSNumber.fin 30)
  | Except.error _ => false

/-! ## Arithmetic on heading indices -/

theorem JSNumber.mod_intCast_natCast (a : ℤ) (n : ℕ) (ha : 0 ≤ a) (hn : 0 < n) :
    (JSNumber.fin (a : ℚ)).mod (JSNumber.fin (n : ℚ)) = JSNumber.fin ((a % (n : ℤ) : ℤ) : ℚ) := by
  have hn0 : (n : ℚ) ≠ 0 := by exact_mod_cast hn.ne.symm
  have hq : (0 : ℚ) ≤ (a : ℚ) / (n : ℚ) := by
    apply div_nonneg
    · exact_mod_cast ha
    · exact_mod_cast hn.le
  have hfloor : ⌊(a : ℚ) / (n : ℚ)⌋ = a / (n : ℤ) := Rat.floor_intCast_div_natCast a n
  simp only [JSNumber.mod, hn0, if_false, JSNumber.truncate, hq, if_true, hfloor]
  congr 1
  rw [Int.emod_def]
  push_cast
  ring

theorem JSNumber.add_fin (a b : ℚ) :
    (JSNumber.fin a).add (JSNumber.fin b) = JSNumber.fin (a + b) := rfl

theorem JSNumber.sub_fin (a b : ℚ) :
    (JSNumber.fin a).sub (JSNumber.fin b) = JSNumber.fin (a - b) := by
  simp [JSNumber.sub, JSNumber.neg, JSNumber.add, sub_eq_add_neg]

/-- The index computed for direction `"down"` from an integer index. -/
theorem index_down (h N : ℕ) (hN : 0 < N) :
    ((JSNumber.fin (h : ℚ)).add (JSNumber.fin 1)).mod (JSNumber.fin (N : ℚ))
      = JSNumber.fin ((((h : ℤ) + 1) % (N : ℤ) : ℤ) : ℚ) := by
  have := JSNumber.mod_intCast_natCast ((h : ℤ) + 1) N (by positivity) hN
  rw [JSNumber.add_fin]
  push_cast at this ⊢
  exact this

/-- The index computed for direction `"up"` from an integer index. -/
theorem index_up (h N : ℕ) (hN : 0 < N) :
    (((JSNumber.fin (h : ℚ)).sub (JSNumber.fin 1)).add (JSNumber.fin (N : ℚ))).mod
        (JSNumber.fin (N : ℚ))
      = JSNumber.fin ((((h : ℤ) - 1 + (N : ℤ)) % (N : ℤ) : ℤ) : ℚ) := by
  have := JSNumber.mod_intCast_natCast ((h : ℤ) - 1 + N) N (by omega) hN
  rw [JSNumber.sub_fin, JSNumber.add_fin]
  push_cast at this ⊢
  exact this

/-! ## The listener, case by case -/

theorem gtNumber_of_toNumber (v : JSValue) (x c : JSNumber)
    (hx : v.toNumber = Except.ok x) : v.gtNumber c = Except.ok (x.gt c) := by
  unfold JSValue.toNumber at hx
  unfold JSValue.gtNumber
  cases hp : v.toPrimitive with
  | error e => rw [hp] at hx; cases hx
  | ok p =>
    rw [hp] at hx
    cases p <;> simp_all [JSPrimitive.toNumber]

theorem mathAbs_of_toNumber (v : JSValue) (x : JSNumber)
    (hx : v.toNumber = Except.ok x) : mathAbs v = Except.ok x.abs := by
  simp [mathAbs, hx]

/-- While `isAnimating` is set the listener changes nothing, whether it
returns or throws. -/
theorem wheelListener_busy (N : ℕ) (s : CarouselState) (ev : WheelEvent)
    (hs : s.isAnimating = true) :
    wheelListener N s ev = Except.ok (s, []) ∨
      wheelListener N s ev = Except.error JSError.typeError := by
  unfold wheelListener
  cases h : mathAbs ev.deltaY with
  | error e => cases e; exact Or.inr rfl
  | ok a =>
    left
    by_cases hgt : a.gt (JSNumber.fin 30) = true
    · simp [hgt, throttledWheel, hs]
    · simp [hgt]

/-- An event that does not pass the test of line 162 changes nothing. -/
theorem wheelListener_below (N : ℕ) (s : CarouselState) (ev : WheelEvent)
    (hev : ev.exceedsThreshold = false) :
    wheelListener N s ev = Except.ok (s, []) ∨
      wheelListener N s ev = Except.error JSError.typeError := by
  unfold WheelEvent.exceedsThreshold at hev
  unfold wheelListener
  cases h : mathAbs ev.deltaY with
  | error e => cases e; exact Or.inr rfl
  | ok a =>
    left
    rw [h] at hev
    simp only at hev
    simp [hev]

/-- An event that passes the test of line 162 while `isAnimating` is clear. -/
theorem wheelListener_accepted (N : ℕ) (s : CarouselState) (ev : WheelEvent) (x : JSNumber)
    (hs : s.isAnimating = false) (hx : ev.deltaY.toNumber = Except.ok x)
    (hgt : x.abs.gt (JSNumber.fin 30) = true) :
    wheelListener N s ev =
      Except.ok
        (⟨true, nextHeadingIndex (if x.gt (JSNumber.fin 0) then Direction.down else Direction.up)
            s.headingIndex N⟩,
         [captionTween ((nextHeadingIndex
              (if x.gt (JSNumber.fin 0) then Direction.down else Direction.up)
              s.headingIndex N).mul (JSNumber.fin (-100))),
          rotationTween (rotationAmount
              (if x.gt (JSNumber.fin 0) then Direction.down else Direction.up))]) := by
  simp [wheelListener, mathAbs_of_toNumber _ _ hx, hgt, throttledWheel, hs,
    gtNumber_of_toNumber _ _ (JSNumber.fin 0) hx]

theorem exceedsThreshold_toNumber (ev : WheelEvent) (hev : ev.exceedsThreshold = true) :
    ∃ x, ev.deltaY.toNumber = Except.ok x ∧ x.abs.gt (JSNumber.fin 30) = true := by
  unfold WheelEvent.exceedsThreshold mathAbs at hev
  cases h : ev.deltaY.toNumber with
  | error e => rw [h] at hev; simp at hev
  | ok x => rw [h] at hev; exact ⟨x, rfl, by simpa using hev⟩

theorem ofNumber_toNumber (q : ℚ) :
    (WheelEvent.ofNumber q).deltaY.toNumber = Except.ok (JSNumber.fin q) := rfl

theorem step_wheel_busy (N : ℕ) (p : Page) (ev : WheelEvent)
    (hp : p.carousel.isAnimating = true) : Page.step N p (PageEvent.wheel ev) = p := by
  rcases wheelListener_busy N p.carousel ev hp with h | h <;> simp [Page.step, h]

theorem step_wheel_below (N : ℕ) (p : Page) (ev : WheelEvent)
    (hev : ev.exceedsThreshold = false) : Page.step N p (PageEvent.wheel ev) = p := by
  rcases wheelListener_below N p.carousel ev hev with h | h <;> simp [Page.step, h]

theorem step_wheel_accepted (N : ℕ) (p : Page) (ev : WheelEvent)
    (hp : p.carousel.isAnimating = false) (hev : ev.exceedsThreshold = true) :
    ∃ (d : Direction), Page.step N p (PageEvent.wheel ev) =
      ⟨⟨true, nextHeadingIndex d p.carousel.headingIndex N⟩,
        p.active ++ [captionTween ((nextHeadingIndex d p.carousel.headingIndex N).mul
            (JSNumber.fin (-100))), rotationTween (rotationAmount d)],
        p.requested ++ [captionTween ((nextHeadingIndex d p.carousel.headingIndex N).mul
            (JSNumber.fin (-100))), rotationTween (rotationAmount d)]⟩ := by
  obtain ⟨x, hx, hgt⟩ := exceedsThreshold_toNumber ev hev
  refine ⟨if x.gt (JSNumber.fin 0) then Direction.down else Direction.up, ?_⟩
  simp [Page.step, wheelListener_accepted N p.carousel ev x hp hx hgt]

theorem run_wheels_busy (N : ℕ) (evs : List WheelEvent) (p : Page)
    (hp : p.carousel.isAnimating = true) :
    Page.run N p (evs.map PageEvent.wheel) = p := by
  induction evs with
  | nil => rfl
  | cons ev rest ih =>
    simp only [Page.run, List.map_cons, List.foldl_cons] at ih ⊢
    rw [step_wheel_busy N p ev hp]
    exact ih

theorem run_wheels_idle (N : ℕ) (evs : List WheelEvent) (p : Page)
    (hp : p.carousel.isAnimating = false) :
    Page.run N p (evs.map PageEvent.wheel) =
      match evs.find? WheelEvent.exceedsThreshold with
      | none => p
      | some ev => Page.step N p (PageEvent.wheel ev) := by
  induction evs with
  | nil => rfl
  | cons ev rest ih =>
    by_cases hev : ev.exceedsThreshold = true
    · obtain ⟨d, hd⟩ := step_wheel_accepted N p ev hp hev
      have hbusy : (Page.step N p (PageEvent.wheel ev)).carousel.isAnimating = true := by
        rw [hd]
      have := run_wheels_busy N rest _ hbusy
      simp only [Page.run, List.map_cons, List.foldl_cons, List.find?_cons, hev] at this ⊢
      exact this
    · have hev' : ev.exceedsThreshold = false := by simpa using hev
      simp only [Page.run, List.map_cons, List.foldl_cons, List.find?_cons, hev',
        step_wheel_below N p ev hev'] at ih ⊢
      exact ih

/-! ## Steps of the page -/

theorem index_down_nat (h N : ℕ) (hN : 0 < N) :
    nextHeadingIndex Direction.down (JSNumber.fin (h : ℚ)) N
      = JSNumber.fin (((h + 1) % N : ℕ) : ℚ) := by
  have hcast : ((((h + 1) % N : ℕ) : ℤ) : ℚ) = ((((h : ℤ) + 1) % (N : ℤ) : ℤ) : ℚ) := by
    congr 1
  simp only [nextHeadingIndex, index_down h N hN, ← hcast]
  norm_cast

theorem index_up_nat (h N : ℕ) (hN : 0 < N) :
    nextHeadingIndex Direction.up (JSNumber.fin (h : ℚ)) N
      = JSNumber.fin (((h + N - 1) % N : ℕ) : ℚ) := by
  have hsub : ((h + N - 1 : ℕ) : ℤ) = (h : ℤ) - 1 + (N : ℤ) := by omega
  have hcast : ((((h + N - 1) % N : ℕ) : ℤ) : ℚ)
      = ((((h : ℤ) - 1 + (N : ℤ)) % (N : ℤ) : ℤ) : ℚ) := by
    congr 1
    rw [Int.natCast_mod, hsub]
  simp only [nextHeadingIndex, index_up h N hN, ← hcast]
  norm_cast

/-- Every step of the page is of one of three kinds: nothing changes; an idle
page accepts a wheel event; the tweener completes an active tween. -/
theorem step_outcome (N : ℕ) (p : Page) (e : PageEvent) :
    Page.step N p e = p ∨
    (p.carousel.isAnimating = false ∧ ∃ d : Direction, Page.step N p e =
      ⟨⟨true, nextHeadingIndex d p.carousel.headingIndex N⟩,
        p.active ++ [captionTween ((nextHeadingIndex d p.carousel.headingIndex N).mul
            (JSNumber.fin (-100))), rotationTween (rotationAmount d)],
        p.requested ++ [captionTween ((nextHeadingIndex d p.carousel.headingIndex N).mul
            (JSNumber.fin (-100))), rotationTween (rotationAmount d)]⟩) ∨
    (∃ i t, e = PageEvent.tweenComplete i ∧ p.active[i]? = some t ∧
      ((t.onComplete = some Callback.clearIsAnimating ∧ Page.step N p e =
          ⟨⟨false, p.carousel.headingIndex⟩, p.active.eraseIdx i, p.requested⟩) ∨
       (t.onComplete = none ∧ Page.step N p e =
          ⟨p.carousel, p.active.eraseIdx i, p.requested⟩))) := by
  cases e with
  | wheel ev =>
    by_cases hbusy : p.carousel.isAnimating = true
    · exact Or.inl (step_wheel_busy N p ev hbusy)
    · by_cases hev : ev.exceedsThreshold = true
      · exact Or.inr (Or.inl ⟨by simpa using hbusy,
          step_wheel_accepted N p ev (by simpa using hbusy) hev⟩)
      · exact Or.inl (step_wheel_below N p ev (by simpa using hev))
  | tweenComplete i =>
    cases hget : p.active[i]? with
    | none => left; simp [Page.step, hget]
    | some t =>
      right; right
      refine ⟨i, t, rfl, hget, ?_⟩
      cases hcb : t.onComplete with
      | none => right; simp [Page.step, hget, hcb]
      | some cb => cases cb; left; simp [Page.step, hget, hcb, Callback.run]

/-- A property kept by every step holds after every sequence of events. -/
theorem run_invariant (N : ℕ) (Inv : Page → Prop)
    (hstep : ∀ p e, Inv p → Inv (Page.step N p e)) (events : List PageEvent) :
    ∀ p, Inv p → Inv (Page.run N p events) := by
  induction events with
  | nil => intro p hp; exact hp
  | cons e rest ih =>
    intro p hp
    exact ih (Page.step N p e) (hstep p e hp)

theorem yawQuarterTurns_append (l₁ l₂ : List Tween) :
    yawQuarterTurns (l₁ ++ l₂) = yawQuarterTurns l₁ + yawQuarterTurns l₂ := by
  induction l₁ with
  | nil => simp [yawQuarterTurns]
  | cons t ts ih =>
    simp only [List.cons_append, yawQuarterTurns]
    split <;> simp [ih, add_assoc]

theorem yawQuarterTurns_transition (y : JSNumber) (r : ℤ) :
    yawQuarterTurns [captionTween y, rotationTween r] = r := by
  simp [yawQuarterTurns, captionTween, rotationTween]

theorem countP_eraseIdx (f : Tween → Bool) :
    ∀ (l : List Tween) (i : ℕ) (t : Tween), l[i]? = some t →
      (l.eraseIdx i).countP f + (if f t then 1 else 0) = l.countP f := by
  intro l
  induction l with
  | nil => intro i t h; simp at h
  | cons a as ih =>
    intro i t h
    cases i with
    | zero =>
      simp only [List.getElem?_cons_zero, Option.some.injEq] at h
      subst h
      simp [List.countP_cons]
    | succ j =>
      simp only [List.getElem?_cons_succ] at h
      have := ih j t h
      simp only [List.eraseIdx_cons_succ, List.countP_cons]
      omega

/-- An idle page accepts a wheel event with `deltaY > 30`. -/
theorem step_down (N h : ℕ) (q : ℚ) (active requested : List Tween) (hN : 0 < N)
    (hq : 30 < q) :
    Page.step N ⟨⟨false, JSNumber.fin (h : ℚ)⟩, active, requested⟩
        (PageEvent.wheel (WheelEvent.ofNumber q)) =
      ⟨⟨true, JSNumber.fin (((h + 1) % N : ℕ) : ℚ)⟩,
        active ++ [captionTween (JSNumber.fin ((((h + 1) % N : ℕ) : ℚ) * (-100))),
          rotationTween (-1)],
        requested ++ [captionTween (JSNumber.fin ((((h + 1) % N : ℕ) : ℚ) * (-100))),
          rotationTween (-1)]⟩ := by
  have habs : 30 < |q| := lt_of_lt_of_le hq (le_abs_self q)
  have hpos : (0 : ℚ) < q := by linarith
  have hacc := wheelListener_accepted N ⟨false, JSNumber.fin (h : ℚ)⟩ (WheelEvent.ofNumber q)
    (JSNumber.fin q) rfl (ofNumber_toNumber q) (by simp [JSNumber.abs, JSNumber.gt, habs])
  have hd : (JSNumber.fin q).gt (JSNumber.fin 0) = true := by simp [JSNumber.gt, hpos]
  simp only [hd, if_true, index_down_nat h N hN, rotationAmount] at hacc
  simp only [Page.step, hacc]
  rfl

/-- An idle page accepts a wheel event with `deltaY < -30`. -/
theorem step_up (N h : ℕ) (q : ℚ) (active requested : List Tween) (hN : 0 < N)
    (hq : q < -30) :
    Page.step N ⟨⟨false, JSNumber.fin (h : ℚ)⟩, active, requested⟩
        (PageEvent.wheel (WheelEvent.ofNumber q)) =
      ⟨⟨true, JSNumber.fin (((h + N - 1) % N : ℕ) : ℚ)⟩,
        active ++ [captionTween (JSNumber.fin ((((h + N - 1) % N : ℕ) : ℚ) * (-100))),
          rotationTween 1],
        requested ++ [captionTween (JSNumber.fin ((((h + N - 1) % N : ℕ) : ℚ) * (-100))),
          rotationTween 1]⟩ := by
  have habs : 30 < |q| := by
    have : -q ≤ |q| := neg_le_abs q
    linarith
  have hneg : ¬ ((0 : ℚ) < q) := by linarith
  have hacc := wheelListener_accepted N ⟨false, JSNumber.fin (h : ℚ)⟩ (WheelEvent.ofNumber q)
    (JSNumber.fin q) rfl (ofNumber_toNumber q) (by simp [JSNumber.abs, JSNumber.gt, habs])
  have hd : (JSNumber.fin q).gt (JSNumber.fin 0) = false := by simp [JSNumber.gt, hneg]
  simp only [hd, Bool.false_eq_true, if_false, index_up_nat h N hN, rotationAmount] at hacc
  simp only [Page.step, hacc]
  rfl

/-- The tweener completes the caption tween started last. -/
theorem step_complete_caption (N : ℕ) (s : CarouselState) (active requested : List Tween)
    (y : JSNumber) (r : Tween) :
    Page.step N ⟨s, active ++ [captionTween y, r], requested⟩
        (PageEvent.tweenComplete active.length) =
      ⟨⟨false, s.headingIndex⟩, active ++ [r], requested⟩ := by
  have hget : (active ++ [captionTween y, r])[active.length]? = some (captionTween y) := by
    rw [List.getElem?_append_right (le_refl _)]
    simp
  have herase : (active ++ [captionTween y, r]).eraseIdx active.length = active ++ [r] := by
    rw [List.eraseIdx_append_of_length_le (le_refl _)]
    simp
  simp only [Page.step, hget, herase]
  rfl

theorem down_up_index (h N : ℕ) (hh : h < N) : ((h + 1) % N + N - 1) % N = h := by
  by_cases hc : h + 1 = N
  · subst hc
    simp
  · have h1 : (h + 1) % N = h + 1 := Nat.mod_eq_of_lt (by omega)
    rw [h1]
    have : h + 1 + N - 1 = h + N := by omega
    rw [this, Nat.add_mod_right, Nat.mod_eq_of_lt hh]

theorem up_down_index (h N : ℕ) (hh : h < N) : ((h + N - 1) % N + 1) % N = h := by
  rcases Nat.eq_zero_or_pos h with h0 | hpos
  · subst h0
    have h1 : (0 + N - 1) % N = N - 1 := by
      rw [Nat.zero_add]; exact Nat.mod_eq_of_lt (by omega)
    rw [h1]
    have : N - 1 + 1 = N := by omega
    rw [this, Nat.mod_self]
  · have h1 : (h + N - 1) % N = h - 1 := by
      have : h + N - 1 = (h - 1) + N := by omega
      rw [this, Nat.add_mod_right, Nat.mod_eq_of_lt (by omega)]
    rw [h1]
    have : h - 1 + 1 = h := by omega
    rw [this, Nat.mod_eq_of_lt hh]

/-- Every active tween is one of the two the handler starts, and `isAnimating`
agrees with the number of caption tweens in flight; a step keeps this. -/
theorem consistent_step (N : ℕ) (p : Page) (e : PageEvent)
    (hp : (∀ t ∈ p.active, (∃ y, t = captionTween y) ∨ (∃ r, t = rotationTween r)) ∧
      p.captionsInFlight = (if p.carousel.isAnimating then 1 else 0)) :
    (∀ t ∈ (Page.step N p e).active,
        (∃ y, t = captionTween y) ∨ (∃ r, t = rotationTween r)) ∧
      (Page.step N p e).captionsInFlight =
        (if (Page.step N p e).carousel.isAnimating then 1 else 0) := by
  obtain ⟨hshape, hcount⟩ := hp
  rcases step_outcome N p e with h | ⟨hidle, d, h⟩ | ⟨i, t, _, hget, ⟨hcb, h⟩ | ⟨hcb, h⟩⟩
  · rw [h]; exact ⟨hshape, hcount⟩
  · rw [h]
    constructor
    · intro t ht
      simp only [List.mem_append, List.mem_cons, List.mem_singleton, List.not_mem_nil,
        or_false] at ht
      rcases ht with ht | ht | ht
      · exact hshape t ht
      · exact Or.inl ⟨_, ht⟩
      · exact Or.inr ⟨_, ht⟩
    · simp only [Page.captionsInFlight, hidle] at hcount ⊢
      rw [List.countP_append, hcount]
      simp [captionTween, rotationTween]
  · have ht : t ∈ p.active := List.getElem?_mem hget
    have hcap : t.target = TweenTarget.headings := by
      rcases hshape t ht with ⟨y, hy⟩ | ⟨r, hr⟩
      · rw [hy]; rfl
      · rw [hr] at hcb; cases hcb
    have herase := countP_eraseIdx (fun t => decide (t.target = TweenTarget.headings))
      p.active i t hget
    rw [h]
    constructor
    · intro u hu
      exact hshape u (List.mem_of_mem_eraseIdx hu)
    · simp only [Page.captionsInFlight] at hcount
      simp only [hcap, decide_True, if_true] at herase
      have hle : p.active.countP (fun t => decide (t.target = TweenTarget.headings)) ≤ 1 := by
        rw [hcount]; split <;> omega
      show List.countP _ (p.active.eraseIdx i) = 0
      omega
  · have ht : t ∈ p.active := List.getElem?_mem hget
    have hrot : t.target = TweenTarget.spheresRotation := by
      rcases hshape t ht with ⟨y, hy⟩ | ⟨r, hr⟩
      · rw [hy] at hcb; cases hcb
      · rw [hr]; rfl
    have herase := countP_eraseIdx (fun t => decide (t.target = TweenTarget.headings))
      p.active i t hget
    rw [h]
    constructor
    · intro u hu
      exact hshape u (List.mem_of_mem_eraseIdx hu)
    · simp only [Page.captionsInFlight] at hcount ⊢
      simp [hrot] at herase
      rw [herase]
      exact hcount

theorem consistent_run (N : ℕ) (events : List PageEvent) :
    (∀ t ∈ (Page.run N Page.initial events).active,
        (∃ y, t = captionTween y) ∨ (∃ r, t = rotationTween r)) ∧
      (Page.run N Page.initial events).captionsInFlight =
        (if (Page.run N Page.initial events).carousel.isAnimating then 1 else 0) := by
  have hinit : (∀ t ∈ Page.initial.active,
        (∃ y, t = captionTween y) ∨ (∃ r, t = rotationTween r)) ∧
      Page.initial.captionsInFlight =
        (if Page.initial.carousel.isAnimating then 1 else 0) := by
    constructor
    · intro t ht
      cases ht
    · rfl
  exact run_invariant N
    (fun p => (∀ t ∈ p.active, (∃ y, t = captionTween y) ∨ (∃ r, t = rotationTween r)) ∧
      p.captionsInFlight = (if p.carousel.isAnimating then 1 else 0))
    (fun p e hp => consistent_step N p e hp) events Page.initial hinit

/-! ## Debounce and threshold -/

/-- C1 (debounce).  While `isAnimating` is true a wheel event, whatever its
`deltaY`, leaves the two variables unchanged and requests no tween: the
listener returns the state it was given together with no `gsap.to` call (or
throws before any assignment), so the page is unchanged after the event and
after any sequence of wheel events.  Hence, from an idle page, a sequence of
wheel events with no completion in between has the effect of its first event
that passes the threshold alone, and requests at most the two tweens of one
transition. -/
theorem debounce (N : ℕ) (p : Page) (ev : WheelEvent) (evs : List WheelEvent)
    (hbusy : p.carousel.isAnimating = true) :
    (wheelListener N p.carousel ev = Except.ok (p.carousel, []) ∨
      wheelListener N p.carousel ev = Except.error JSError.typeError) ∧
    Page.step N p (PageEvent.wheel ev) = p ∧
    Page.run N p (evs.map PageEvent.wheel) = p ∧
    (∀ idle : Page, idle.carousel.isAnimating = false →
      Page.run N idle (evs.map PageEvent.wheel) =
          (match evs.find? WheelEvent.exceedsThreshold with
            | none => idle
            | some first => Page.step N idle (PageEvent.wheel first)) ∧
      (Page.run N idle (evs.map PageEvent.wheel)).requested.length
          ≤ idle.requested.length + 2) := by
  refine ⟨wheelListener_busy N p.carousel ev hbusy, step_wheel_busy N p ev hbusy,
    run_wheels_busy N evs p hbusy, ?_⟩
  intro idle hidle
  refine ⟨run_wheels_idle N evs idle hidle, ?_⟩
  rw [run_wheels_idle N evs idle hidle]
  cases hfind : evs.find? WheelEvent.exceedsThreshold with
  | none => simp
  | some first =>
    have hfirst : first.exceedsThreshold = true := List.find?_some hfind
    obtain ⟨d, hd⟩ := step_wheel_accepted N idle first hidle hfirst
    simp [hd]

/-- C2 (threshold filter).  A wheel event whose `deltaY` is a number with
`|deltaY| ≤ 30` leaves the two variables unchanged and requests no tween,
whatever the state. -/
theorem threshold_filter (N : ℕ) (p : Page) (q : ℚ) (hq : |q| ≤ 30) :
    wheelListener N p.carousel (WheelEvent.ofNumber q) = Except.ok (p.carousel, []) ∧
    Page.step N p (PageEvent.wheel (WheelEvent.ofNumber q)) = p := by
  have hlisten :
      wheelListener N p.carousel (WheelEvent.ofNumber q) = Except.ok (p.carousel, []) := by
    have hgt : ¬ (30 < |q|) := not_lt.mpr hq
    simp [wheelListener, mathAbs_of_toNumber _ _ (ofNumber_toNumber q), JSNumber.abs,
      JSNumber.gt, hgt]
  exact ⟨hlisten, by simp [Page.step, hlisten]⟩

/-! ## Accepted events -/

/-- C3 (accepted-event postcondition).  With `N ≥ 1` headings, an index `h`
in `[0, N)` and `isAnimating` false, a wheel event with `|deltaY| > 30` makes
the listener return, before any completion callback, a state with
`isAnimating = true` and `headingIndex = (h + 1) mod N` when `deltaY > 0`,
`headingIndex = (h - 1 + N) mod N` when `deltaY < 0`. -/
theorem accepted_postcondition (N h : ℕ) (q : ℚ) (hN : 1 ≤ N) (_hh : h < N)
    (hq : 30 < |q|) :
    (0 < q → ∃ tweens,
      wheelListener N ⟨false, JSNumber.fin (h : ℚ)⟩ (WheelEvent.ofNumber q) =
        Except.ok (⟨true, JSNumber.fin ((((h : ℤ) + 1) % (N : ℤ) : ℤ) : ℚ)⟩, tweens)) ∧
    (q < 0 → ∃ tweens,
      wheelListener N ⟨false, JSNumber.fin (h : ℚ)⟩ (WheelEvent.ofNumber q) =
        Except.ok (⟨true, JSNumber.fin ((((h : ℤ) - 1 + (N : ℤ)) % (N : ℤ) : ℤ) : ℚ)⟩,
          tweens)) := by
  have hacc := wheelListener_accepted N ⟨false, JSNumber.fin (h : ℚ)⟩ (WheelEvent.ofNumber q)
    (JSNumber.fin q) rfl (ofNumber_toNumber q) (by simp [JSNumber.abs, JSNumber.gt, hq])
  constructor
  · intro hpos
    have hd : (JSNumber.fin q).gt (JSNumber.fin 0) = true := by simp [JSNumber.gt, hpos]
    simp only [hd, if_true, nextHeadingIndex, index_down h N hN] at hacc
    exact ⟨_, hacc⟩
  · intro hneg
    have hd : (JSNumber.fin q).gt (JSNumber.fin 0) = false := by
      simp [JSNumber.gt, hneg.le]
    simp only [hd, Bool.false_eq_true, if_false, nextHeadingIndex, index_up h N hN] at hacc
    exact ⟨_, hacc⟩

/-- C8 (executor targets).  For every accepted wheel event (the numeric value
`x` of `deltaY` has `|x| > 30` and `isAnimating` is false) the listener makes
exactly two `gsap.to` calls: the caption tween, whose offset is the updated
`headingIndex` times `-100` percent, then the rotation tween, a relative
increment of minus a quarter turn when `deltaY > 0` (down) and plus a quarter
turn otherwise (up).  The updated index is the one computed from the old one
for that direction. -/
theorem executor_targets (N : ℕ) (s : CarouselState) (ev : WheelEvent) (x : JSNumber)
    (hs : s.isAnimating = false) (hx : ev.deltaY.toNumber = Except.ok x)
    (hgt : x.abs.gt (JSNumber.fin 30) = true) :
    ∃ toIndex : JSNumber,
      toIndex = nextHeadingIndex (if x.gt (JSNumber.fin 0) then Direction.down else Direction.up)
        s.headingIndex N ∧
      wheelListener N s ev =
        Except.ok (⟨true, toIndex⟩,
          [⟨TweenTarget.headings, TweenY.percent (toIndex.mul (JSNumber.fin (-100))), 1,
              "power2.inOut", some Callback.clearIsAnimating⟩,
           ⟨TweenTarget.spheresRotation,
              TweenY.relative (if x.gt (JSNumber.fin 0) then -1 else 1), 1,
              "power2.inOut", none⟩]) ∧
      (∀ k : ℚ, toIndex = JSNumber.fin k →
        toIndex.mul (JSNumber.fin (-100)) = JSNumber.fin (k * (-100))) := by
  refine ⟨_, rfl, ?_, ?_⟩
  · rw [wheelListener_accepted N s ev x hs hx hgt]
    cases x.gt (JSNumber.fin 0) <;> rfl
  · intro k hk
    rw [hk]
    rfl

/-! ## Invariants of the running page -/

/-- C4 (index range).  With a fixed number `N ≥ 1` of headings, from the
initial state (`headingIndex = 0`, `isAnimating = false`), after every finite
sequence of wheel events (any `deltaY`) and tween completions, `headingIndex`
is an integer `k` with `0 ≤ k < N`. -/
theorem index_range (N : ℕ) (hN : 1 ≤ N) (events : List PageEvent) :
    ∃ k : ℕ, k < N ∧
      (Page.run N Page.initial events).carousel.headingIndex = JSNumber.fin (k : ℚ) := by
  have hstep : ∀ p e, (∃ k : ℕ, k < N ∧ p.carousel.headingIndex = JSNumber.fin (k : ℚ)) →
      ∃ k : ℕ, k < N ∧ (Page.step N p e).carousel.headingIndex = JSNumber.fin (k : ℚ) := by
    intro p e ⟨k, hk, hidx⟩
    rcases step_outcome N p e with h | ⟨_, d, h⟩ | ⟨i, t, _, _, ⟨_, h⟩ | ⟨_, h⟩⟩
    · rw [h]; exact ⟨k, hk, hidx⟩
    · rw [h, hidx]
      cases d
      · exact ⟨(k + 1) % N, Nat.mod_lt _ hN, index_down_nat k N hN⟩
      · exact ⟨(k + N - 1) % N, Nat.mod_lt _ hN, index_up_nat k N hN⟩
    · rw [h]; exact ⟨k, hk, hidx⟩
    · rw [h]; exact ⟨k, hk, hidx⟩
  exact run_invariant N _ hstep events Page.initial ⟨0, hN, by
    simp [Page.initial, CarouselState.initial]⟩

/-- C5 (directional symmetry).  With `N ≥ 1` headings, from an idle page
whose index is `h` in `[0, N)`: an accepted down event (`deltaY > 30`), the
completion of the caption tween it started, then an accepted up event
(`deltaY < -30`) bring `headingIndex` back to `h`; the two transitions request
a rotation of minus a quarter turn and then of plus a quarter turn, whose sum
is zero, so the total requested yaw is what it was.  The same holds for up
followed by down. -/
theorem directional_symmetry (N h : ℕ) (qDown qUp : ℚ) (active requested : List Tween)
    (hN : 1 ≤ N) (hh : h < N) (hdown : 30 < qDown) (hup : qUp < -30) :
    ((Page.run N ⟨⟨false, JSNumber.fin (h : ℚ)⟩, active, requested⟩
        [PageEvent.wheel (WheelEvent.ofNumber qDown), PageEvent.tweenComplete active.length,
          PageEvent.wheel (WheelEvent.ofNumber qUp)]).carousel.headingIndex
        = JSNumber.fin (h : ℚ) ∧
      (Page.run N ⟨⟨false, JSNumber.fin (h : ℚ)⟩, active, requested⟩
        [PageEvent.wheel (WheelEvent.ofNumber qDown), PageEvent.tweenComplete active.length,
          PageEvent.wheel (WheelEvent.ofNumber qUp)]).requested
        = requested ++
          [captionTween (JSNumber.fin ((((h + 1) % N : ℕ) : ℚ) * (-100))), rotationTween (-1),
            captionTween (JSNumber.fin ((h : ℚ) * (-100))), rotationTween 1] ∧
      yawQuarterTurns (Page.run N ⟨⟨false, JSNumber.fin (h : ℚ)⟩, active, requested⟩
        [PageEvent.wheel (WheelEvent.ofNumber qDown), PageEvent.tweenComplete active.length,
          PageEvent.wheel (WheelEvent.ofNumber qUp)]).requested
        = yawQuarterTurns requested) ∧
    ((Page.run N ⟨⟨false, JSNumber.fin (h : ℚ)⟩, active, requested⟩
        [PageEvent.wheel (WheelEvent.ofNumber qUp), PageEvent.tweenComplete active.length,
          PageEvent.wheel (WheelEvent.ofNumber qDown)]).carousel.headingIndex
        = JSNumber.fin (h : ℚ) ∧
      (Page.run N ⟨⟨false, JSNumber.fin (h : ℚ)⟩, active, requested⟩
        [PageEvent.wheel (WheelEvent.ofNumber qUp), PageEvent.tweenComplete active.length,
          PageEvent.wheel (WheelEvent.ofNumber qDown)]).requested
        = requested ++
          [captionTween (JSNumber.fin ((((h + N - 1) % N : ℕ) : ℚ) * (-100))), rotationTween 1,
            captionTween (JSNumber.fin ((h : ℚ) * (-100))), rotationTween (-1)] ∧
      yawQuarterTurns (Page.run N ⟨⟨false, JSNumber.fin (h : ℚ)⟩, active, requested⟩
        [PageEvent.wheel (WheelEvent.ofNumber qUp), PageEvent.tweenComplete active.length,
          PageEvent.wheel (WheelEvent.ofNumber qDown)]).requested
        = yawQuarterTurns requested) := by
  have hdownUp : Page.run N ⟨⟨false, JSNumber.fin (h : ℚ)⟩, active, requested⟩
        [PageEvent.wheel (WheelEvent.ofNumber qDown), PageEvent.tweenComplete active.length,
          PageEvent.wheel (WheelEvent.ofNumber qUp)]
      = ⟨⟨true, JSNumber.fin (h : ℚ)⟩,
          (active ++ [rotationTween (-1)]) ++
            [captionTween (JSNumber.fin ((h : ℚ) * (-100))), rotationTween 1],
          (requested ++
            [captionTween (JSNumber.fin ((((h + 1) % N : ℕ) : ℚ) * (-100))),
              rotationTween (-1)]) ++
            [captionTween (JSNumber.fin ((h : ℚ) * (-100))), rotationTween 1]⟩ := by
    simp only [Page.run, List.foldl_cons, List.foldl_nil]
    rw [step_down N h qDown active requested hN hdown, step_complete_caption,
      step_up N ((h + 1) % N) qUp _ _ hN hup, down_up_index h N hh]
  have hupDown : Page.run N ⟨⟨false, JSNumber.fin (h : ℚ)⟩, active, requested⟩
        [PageEvent.wheel (WheelEvent.ofNumber qUp), PageEvent.tweenComplete active.length,
          PageEvent.wheel (WheelEvent.ofNumber qDown)]
      = ⟨⟨true, JSNumber.fin (h : ℚ)⟩,
          (active ++ [rotationTween 1]) ++
            [captionTween (JSNumber.fin ((h : ℚ) * (-100))), rotationTween (-1)],
          (requested ++
            [captionTween (JSNumber.fin ((((h + N - 1) % N : ℕ) : ℚ) * (-100))),
              rotationTween 1]) ++
            [captionTween (JSNumber.fin ((h : ℚ) * (-100))), rotationTween (-1)]⟩ := by
    simp only [Page.run, List.foldl_cons, List.foldl_nil]
    rw [step_up N h qUp active requested hN hup, step_complete_caption,
      step_down N ((h + N - 1) % N) qDown _ _ hN hdown, up_down_index h N hh]
  rw [hdownUp, hupDown]
  refine ⟨⟨rfl, by simp, ?_⟩, ⟨rfl, by simp, ?_⟩⟩
  · simp only [yawQuarterTurns_append, yawQuarterTurns_transition]
    ring
  · simp only [yawQuarterTurns_append, yawQuarterTurns_transition]
    ring

/-- C9 (mutual exclusion).  In every page reachable from the initial one by
wheel events and tween completions (each started tween completing once), at
most one caption tween is in flight and `isAnimating` is true exactly when one
is; and whenever a step takes `isAnimating` from true to false, that step is
the completion of an active caption tween: no wheel event and no completion of
a rotation tween clears the flag. -/
theorem mutual_exclusion (N : ℕ) (events : List PageEvent) (e : PageEvent) :
    (Page.run N Page.initial events).captionsInFlight ≤ 1 ∧
    ((Page.run N Page.initial events).carousel.isAnimating = true ↔
      (Page.run N Page.initial events).captionsInFlight = 1) ∧
    ((Page.run N Page.initial events).carousel.isAnimating = true →
      (Page.step N (Page.run N Page.initial events) e).carousel.isAnimating = false →
      ∃ i y, e = PageEvent.tweenComplete i ∧
        (Page.run N Page.initial events).active[i]? = some (captionTween y)) := by
  obtain ⟨hshape, hcount⟩ := consistent_run N events
  generalize Page.run N Page.initial events = p at hshape hcount ⊢
  refine ⟨?_, ?_, ?_⟩
  · rw [hcount]; split <;> omega
  · rw [hcount]
    cases p.carousel.isAnimating <;> simp
  · intro hbusy hclear
    rcases step_outcome N p e with h | ⟨hidle, _, _⟩ | ⟨i, t, he, hget, ⟨hcb, _⟩ | ⟨_, h⟩⟩
    · rw [h, hbusy] at hclear; cases hclear
    · rw [hbusy] at hidle; cases hidle
    · rcases hshape t (List.getElem?_mem hget) with ⟨y, hy⟩ | ⟨r, hr⟩
      · exact ⟨i, y, he, by rw [hget, hy]⟩
      · rw [hr] at hcb; cases hcb
    · rw [h] at hclear
      rw [hbusy] at hclear; cases hclear

/-- C10 (lockstep of rotation and index).  With four headings, from the
initial state, after every finite sequence of wheel events and tween
completions `headingIndex` is an integer `k` in `[0, 4)` and the sum of all
requested yaw increments, in quarter turns (down `-1`, up `+1`), is congruent
to `-k` modulo 4. -/
theorem lockstep (events : List PageEvent) :
    ∃ k : ℕ, k < 4 ∧
      (Page.run 4 Page.initial events).carousel.headingIndex = JSNumber.fin (k : ℚ) ∧
      yawQuarterTurns (Page.run 4 Page.initial events).requested % 4 = (-(k : ℤ)) % 4 := by
  have hstep : ∀ p e,
      (∃ k : ℕ, k < 4 ∧ p.carousel.headingIndex = JSNumber.fin (k : ℚ) ∧
        yawQuarterTurns p.requested % 4 = (-(k : ℤ)) % 4) →
      ∃ k : ℕ, k < 4 ∧ (Page.step 4 p e).carousel.headingIndex = JSNumber.fin (k : ℚ) ∧
        yawQuarterTurns (Page.step 4 p e).requested % 4 = (-(k : ℤ)) % 4 := by
    intro p e ⟨k, hk, hidx, hyaw⟩
    rcases step_outcome 4 p e with h | ⟨_, d, h⟩ | ⟨i, t, _, _, ⟨_, h⟩ | ⟨_, h⟩⟩
    · rw [h]; exact ⟨k, hk, hidx, hyaw⟩
    · rw [h, hidx]
      simp only [yawQuarterTurns_append, yawQuarterTurns_transition]
      cases d
      · refine ⟨(k + 1) % 4, Nat.mod_lt _ (by norm_num), index_down_nat k 4 (by norm_num), ?_⟩
        simp only [rotationAmount]
        omega
      · refine ⟨(k + 4 - 1) % 4, Nat.mod_lt _ (by norm_num),
          index_up_nat k 4 (by norm_num), ?_⟩
        simp only [rotationAmount]
        omega
    · rw [h]; exact ⟨k, hk, hidx, hyaw⟩
    · rw [h]; exact ⟨k, hk, hidx, hyaw⟩
  exact run_invariant 4 _ hstep events Page.initial ⟨0, by norm_num, by
    simp [Page.initial, CarouselState.initial], by simp [Page.initial, yawQuarterTurns]⟩

/-! ## Inputs outside the intended range -/

theorem nextHeadingIndex_zero (d : Direction) (h : JSNumber) :
    nextHeadingIndex d h 0 = JSNumber.nan := by
  cases d <;> cases h <;>
    simp [nextHeadingIndex, JSNumber.add, JSNumber.sub, JSNumber.neg, JSNumber.mod]

/-- C6, counterexample.  With no `h1` element (`totalHeadings = 0`), the
wheel event `deltaY = 100` arriving in the initial state is not ignored: the
listener sets `isAnimating`, evaluates the remainder by zero, so that
`headingIndex` becomes `NaN`, and requests both tweens. -/
theorem empty_carousel_not_ignored :
    wheelListener 0 CarouselState.initial (WheelEvent.ofNumber 100) =
        Except.ok (⟨true, JSNumber.nan⟩,
          [captionTween JSNumber.nan, rotationTween (-1)]) ∧
    wheelListener 0 CarouselState.initial (WheelEvent.ofNumber 100) ≠
        Except.ok (CarouselState.initial, []) := by
  have hacc := wheelListener_accepted 0 CarouselState.initial (WheelEvent.ofNumber 100)
    (JSNumber.fin 100) rfl (ofNumber_toNumber 100) (by norm_num [JSNumber.abs, JSNumber.gt])
  have hd : (JSNumber.fin 100).gt (JSNumber.fin 0) = true := by norm_num [JSNumber.gt]
  simp only [hd, if_true, nextHeadingIndex_zero, rotationAmount] at hacc
  have hmul : JSNumber.nan.mul (JSNumber.fin (-100)) = JSNumber.nan := rfl
  rw [hmul] at hacc
  rw [hacc]
  exact ⟨rfl, by simp [CarouselState.initial]⟩

/-- C6, as the code behaves.  With `totalHeadings = 0` the handler has no
guard: an event whose `deltaY` has numeric value `x` with `|x| > 30`, arriving
while `isAnimating` is false, sets `isAnimating`, leaves `NaN` in
`headingIndex` (the remainder by zero) and requests the caption tween with
offset `NaN` and the rotation tween.  Events that do not pass the threshold,
and events arriving while `isAnimating` is true, change nothing. -/
theorem empty_carousel (p : Page) (ev : WheelEvent) (x : JSNumber)
    (hidle : p.carousel.isAnimating = false) (hx : ev.deltaY.toNumber = Except.ok x)
    (hgt : x.abs.gt (JSNumber.fin 30) = true) :
    wheelListener 0 p.carousel ev =
        Except.ok (⟨true, JSNumber.nan⟩,
          [captionTween JSNumber.nan,
            rotationTween (if x.gt (JSNumber.fin 0) then -1 else 1)]) ∧
    (∀ below : WheelEvent, below.exceedsThreshold = false →
      Page.step 0 p (PageEvent.wheel below) = p) ∧
    (∀ (busy : Page) (any : WheelEvent), busy.carousel.isAnimating = true →
      Page.step 0 busy (PageEvent.wheel any) = busy) := by
  refine ⟨?_, fun below hb => step_wheel_below 0 p below hb,
    fun busy any hb => step_wheel_busy 0 busy any hb⟩
  rw [wheelListener_accepted 0 p.carousel ev x hidle hx hgt]
  simp only [nextHeadingIndex_zero]
  have hmul : JSNumber.nan.mul (JSNumber.fin (-100)) = JSNumber.nan := rfl
  rw [hmul]
  cases x.gt (JSNumber.fin 0) <;> rfl

theorem stringToNumber_100 : StringToNumber "100" = JSNumber.fin 100 := by
  have h1 : trimWhiteSpace [ '1', '0', '0'] = [ '1', '0', '0'] := by decide
  have h2 : parseNonDecimal [ '1', '0', '0'] = none := by decide
  have h3 : parseUnsignedDecimal [ '1', '0', '0'] = some (StrNumeric.decimal 100 0) := by
    decide
  simp [StringToNumber, h1, h2, h3, StrNumeric.toNumber]

theorem stringToNumber_abc : StringToNumber "abc" = JSNumber.nan := by
  have h1 : trimWhiteSpace [ 'a', 'b', 'c'] = [ 'a', 'b', 'c'] := by decide
  have h2 : parseNonDecimal [ 'a', 'b', 'c'] = none := by decide
  have h3 : parseUnsignedDecimal [ 'a', 'b', 'c'] = none := by decide
  simp [StringToNumber, h1, h2, h3]

theorem stringToNumber_objectObject : StringToNumber "[object Object]" = JSNumber.nan := by
  have h1 : trimWhiteSpace "[object Object]".toList = "[object Object]".toList := by decide
  have h2 : parseNonDecimal "[object Object]".toList = none := by decide
  have h3 : parseUnsignedDecimal "[object Object]".toList = none := by decide
  unfold StringToNumber
  simp only [h1, h2, h3]
  rfl

/-- C7, counterexample.  A wheel event whose `deltaY` is the string `"100"`
is not treated as below threshold: `Math.abs("100")` is `100`, and from the
initial state with four headings the listener sets `isAnimating`, moves
`headingIndex` to `1` and requests both tweens. -/
theorem numeric_string_accepted :
    wheelListener 4 CarouselState.initial ⟨JSValue.prim (JSPrimitive.string "100")⟩ =
        Except.ok (⟨true, JSNumber.fin 1⟩,
          [captionTween (JSNumber.fin (-100)), rotationTween (-1)]) ∧
    wheelListener 4 CarouselState.initial ⟨JSValue.prim (JSPrimitive.string "100")⟩ ≠
        Except.ok (CarouselState.initial, []) := by
  have hx : (WheelEvent.mk (JSValue.prim (JSPrimitive.string "100"))).deltaY.toNumber
      = Except.ok (JSNumber.fin 100) := by
    simp [JSValue.toNumber, JSValue.toPrimitive, JSPrimitive.toNumber, stringToNumber_100]
  have hacc := wheelListener_accepted 4 CarouselState.initial
    ⟨JSValue.prim (JSPrimitive.string "100")⟩ (JSNumber.fin 100) rfl hx
    (by norm_num [JSNumber.abs, JSNumber.gt])
  have hd : (JSNumber.fin 100).gt (JSNumber.fin 0) = true := by norm_num [JSNumber.gt]
  have hidx : nextHeadingIndex Direction.down CarouselState.initial.headingIndex 4
      = JSNumber.fin 1 := by
    have := index_down_nat 0 4 (by norm_num)
    simpa [CarouselState.initial] using this
  simp only [hd, if_true, hidx, rotationAmount] at hacc
  have hmul : (JSNumber.fin 1).mul (JSNumber.fin (-100)) = JSNumber.fin (-100) := by
    simp [JSNumber.mul]
  rw [hmul] at hacc
  rw [hacc]
  exact ⟨rfl, by simp [CarouselState.initial]⟩

theorem wheelListener_coerced_small (N : ℕ) (s : CarouselState) (ev : WheelEvent)
    (x : JSNumber) (hx : ev.deltaY.toNumber = Except.ok x)
    (hsmall : x = JSNumber.nan ∨ ∃ q : ℚ, x = JSNumber.fin q ∧ |q| ≤ 30) :
    wheelListener N s ev = Except.ok (s, []) := by
  have hgt : x.abs.gt (JSNumber.fin 30) = false := by
    rcases hsmall with h | ⟨q, h, hq⟩
    · rw [h]; rfl
    · rw [h]
      simp [JSNumber.abs, JSNumber.gt, hq]
  simp [wheelListener, mathAbs_of_toNumber _ _ hx, hgt]

/-- C7, as the code behaves.  A wheel event whose `deltaY` coerces to a
number (`ToNumber` completes) that is `NaN` or has magnitude at most `30` is
treated as below threshold: the listener returns without throwing, with the
state it was given and no tween.  In particular this holds, in every state,
for a missing `deltaY` (`undefined`), for `null`, for `NaN`, for a string that
is not a numeric literal such as `"abc"`, and for a plain object (whose
primitive value is `"[object Object]"`). -/
theorem malformed_deltaY (N : ℕ) (s : CarouselState) (ev : WheelEvent) (x : JSNumber)
    (hx : ev.deltaY.toNumber = Except.ok x)
    (hsmall : x = JSNumber.nan ∨ ∃ q : ℚ, x = JSNumber.fin q ∧ |q| ≤ 30) :
    wheelListener N s ev = Except.ok (s, []) ∧
    wheelListener N s ⟨JSValue.prim JSPrimitive.undefined⟩ = Except.ok (s, []) ∧
    wheelListener N s ⟨JSValue.prim JSPrimitive.null⟩ = Except.ok (s, []) ∧
    wheelListener N s ⟨JSValue.prim (JSPrimitive.number JSNumber.nan)⟩ = Except.ok (s, []) ∧
    wheelListener N s ⟨JSValue.prim (JSPrimitive.string "abc")⟩ = Except.ok (s, []) ∧
    wheelListener N s ⟨JSValue.object (Except.ok (JSPrimitive.string "[object Object]"))⟩
      = Except.ok (s, []) := by
  refine ⟨wheelListener_coerced_small N s ev x hx hsmall,
    wheelListener_coerced_small N s _ JSNumber.nan rfl (Or.inl rfl),
    wheelListener_coerced_small N s _ (JSNumber.fin 0) rfl (Or.inr ⟨0, rfl, by norm_num⟩),
    wheelListener_coerced_small N s _ JSNumber.nan rfl (Or.inl rfl),
    wheelListener_coerced_small N s _ JSNumber.nan ?_ (Or.inl rfl),
    wheelListener_coerced_small N s _ JSNumber.nan ?_ (Or.inl rfl)⟩
  · simp [JSValue.toNumber, JSValue.toPrimitive, JSPrimitive.toNumber, stringToNumber_abc]
  · simp [JSValue.toNumber, JSValue.toPrimitive, JSPrimitive.toNumber,
      stringToNumber_objectObject]

/-! ## Instances -/

/-- C1 at the page reached from the initial one by `deltaY = 100` with four
headings: a further `deltaY = 100` before completion changes nothing. -/
theorem debounce_witness :
    (Page.mk ⟨true, JSNumber.fin 1⟩
        [captionTween (JSNumber.fin (-100)), rotationTween (-1)]
        [captionTween (JSNumber.fin (-100)), rotationTween (-1)]).carousel.isAnimating = true ∧
    Page.step 4 (Page.mk ⟨true, JSNumber.fin 1⟩
        [captionTween (JSNumber.fin (-100)), rotationTween (-1)]
        [captionTween (JSNumber.fin (-100)), rotationTween (-1)])
        (PageEvent.wheel (WheelEvent.ofNumber 100)) =
      Page.mk ⟨true, JSNumber.fin 1⟩
        [captionTween (JSNumber.fin (-100)), rotationTween (-1)]
        [captionTween (JSNumber.fin (-100)), rotationTween (-1)] :=
  ⟨rfl, (debounce 4 (Page.mk ⟨true, JSNumber.fin 1⟩
        [captionTween (JSNumber.fin (-100)), rotationTween (-1)]
        [captionTween (JSNumber.fin (-100)), rotationTween (-1)])
      (WheelEvent.ofNumber 100) [] rfl).2.1⟩

/-- C2 at `deltaY = 30` and `deltaY = -30`, in the initial state. -/
theorem threshold_filter_witness :
    |(30 : ℚ)| ≤ 30 ∧ |(-30 : ℚ)| ≤ 30 ∧
    wheelListener 4 Page.initial.carousel (WheelEvent.ofNumber 30)
      = Except.ok (Page.initial.carousel, []) ∧
    wheelListener 4 Page.initial.carousel (WheelEvent.ofNumber (-30))
      = Except.ok (Page.initial.carousel, []) :=
  ⟨by norm_num, by norm_num, (threshold_filter 4 Page.initial 30 (by norm_num)).1,
    (threshold_filter 4 Page.initial (-30) (by norm_num)).1⟩

/-- C3 with four headings at index `0`: `deltaY = 100` gives index `1`,
`deltaY = -100` gives index `3`. -/
theorem accepted_postcondition_witness :
    1 ≤ 4 ∧ 0 < 4 ∧ (30 : ℚ) < |100| ∧ (30 : ℚ) < |(-100)| ∧
    (∃ tweens, wheelListener 4 ⟨false, JSNumber.fin 0⟩ (WheelEvent.ofNumber 100) =
        Except.ok (⟨true, JSNumber.fin 1⟩, tweens)) ∧
    (∃ tweens, wheelListener 4 ⟨false, JSNumber.fin 0⟩ (WheelEvent.ofNumber (-100)) =
        Except.ok (⟨true, JSNumber.fin 3⟩, tweens)) :=
  ⟨by norm_num, by norm_num, by norm_num, by norm_num,
    by simpa using (accepted_postcondition 4 0 100 (by norm_num) (by norm_num)
      (by norm_num)).1 (by norm_num),
    by simpa using (accepted_postcondition 4 0 (-100) (by norm_num) (by norm_num)
      (by norm_num)).2 (by norm_num)⟩

/-- C4 with four headings after a down transition, its completion and an up
transition. -/
theorem index_range_witness :
    1 ≤ 4 ∧ ∃ k : ℕ, k < 4 ∧
      (Page.run 4 Page.initial
        [PageEvent.wheel (WheelEvent.ofNumber 100), PageEvent.tweenComplete 0,
          PageEvent.wheel (WheelEvent.ofNumber (-100))]).carousel.headingIndex
        = JSNumber.fin (k : ℚ) :=
  ⟨by norm_num, index_range 4 (by norm_num) _⟩

/-- C5 with four headings from index `0`: down by `100`, completion, up by
`-100` returns to index `0` with total requested yaw `0`. -/
theorem directional_symmetry_witness :
    1 ≤ 4 ∧ 0 < 4 ∧ (30 : ℚ) < 100 ∧ (-100 : ℚ) < -30 ∧
    (Page.run 4 ⟨⟨false, JSNumber.fin ((0 : ℕ) : ℚ)⟩, [], []⟩
        [PageEvent.wheel (WheelEvent.ofNumber 100),
          PageEvent.tweenComplete ([] : List Tween).length,
          PageEvent.wheel (WheelEvent.ofNumber (-100))]).carousel.headingIndex
        = JSNumber.fin ((0 : ℕ) : ℚ) ∧
    yawQuarterTurns (Page.run 4 ⟨⟨false, JSNumber.fin ((0 : ℕ) : ℚ)⟩, [], []⟩
        [PageEvent.wheel (WheelEvent.ofNumber 100),
          PageEvent.tweenComplete ([] : List Tween).length,
          PageEvent.wheel (WheelEvent.ofNumber (-100))]).requested
        = yawQuarterTurns [] :=
  ⟨by norm_num, by norm_num, by norm_num, by norm_num,
    (directional_symmetry 4 0 100 (-100) [] [] (by norm_num) (by norm_num) (by norm_num)
      (by norm_num)).1.1,
    (directional_symmetry 4 0 100 (-100) [] [] (by norm_num) (by norm_num) (by norm_num)
      (by norm_num)).1.2.2⟩

/-- C6 as amended, at the initial page and `deltaY = 100`. -/
theorem empty_carousel_witness :
    Page.initial.carousel.isAnimating = false ∧
    (WheelEvent.ofNumber 100).deltaY.toNumber = Except.ok (JSNumber.fin 100) ∧
    (JSNumber.fin 100).abs.gt (JSNumber.fin 30) = true ∧
    wheelListener 0 Page.initial.carousel (WheelEvent.ofNumber 100) =
      Except.ok (⟨true, JSNumber.nan⟩,
        [captionTween JSNumber.nan,
          rotationTween (if (JSNumber.fin 100).gt (JSNumber.fin 0) then -1 else 1)]) :=
  ⟨rfl, rfl, by norm_num [JSNumber.abs, JSNumber.gt],
    (empty_carousel Page.initial (WheelEvent.ofNumber 100) (JSNumber.fin 100) rfl rfl
      (by norm_num [JSNumber.abs, JSNumber.gt])).1⟩

/-- C7 as amended, at an event without `deltaY`, in the initial state. -/
theorem malformed_deltaY_witness :
    (WheelEvent.mk (JSValue.prim JSPrimitive.undefined)).deltaY.toNumber
      = Except.ok JSNumber.nan ∧
    wheelListener 4 CarouselState.initial ⟨JSValue.prim JSPrimitive.undefined⟩
      = Except.ok (CarouselState.initial, []) :=
  ⟨rfl, (malformed_deltaY 4 CarouselState.initial ⟨JSValue.prim JSPrimitive.undefined⟩
      JSNumber.nan rfl (Or.inl rfl)).1⟩

/-- C8 with four headings, in the initial state, at `deltaY = 100`. -/
theorem executor_targets_witness :
    CarouselState.initial.isAnimating = false ∧
    (JSNumber.fin 100).abs.gt (JSNumber.fin 30) = true ∧
    ∃ toIndex : JSNumber,
      toIndex = nextHeadingIndex
        (if (JSNumber.fin 100).gt (JSNumber.fin 0) then Direction.down else Direction.up)
        CarouselState.initial.headingIndex 4 ∧
      wheelListener 4 CarouselState.initial (WheelEvent.ofNumber 100) =
        Except.ok (⟨true, toIndex⟩,
          [⟨TweenTarget.headings, TweenY.percent (toIndex.mul (JSNumber.fin (-100))), 1,
              "power2.inOut", some Callback.clearIsAnimating⟩,
           ⟨TweenTarget.spheresRotation,
              TweenY.relative (if (JSNumber.fin 100).gt (JSNumber.fin 0) then -1 else 1), 1,
              "power2.inOut", none⟩]) ∧
      (∀ k : ℚ, toIndex = JSNumber.fin k →
        toIndex.mul (JSNumber.fin (-100)) = JSNumber.fin (k * (-100))) :=
  ⟨rfl, by norm_num [JSNumber.abs, JSNumber.gt],
    executor_targets 4 CarouselState.initial (WheelEvent.ofNumber 100) (JSNumber.fin 100)
      rfl rfl (by norm_num [JSNumber.abs, JSNumber.gt])⟩

end Planets
